import Mathlib

/-!
Verification development for the kafka purchase pipeline
(web-server producer side, api-server consumer side).

The embedding below translates the Python sources:
  * `api-server/app/models.py`    — the `PurchaseCreatedEvent` pydantic schema;
  * `api-server/app/mongo.py`     — `insert_purchase` and `get_purchases_by_user`;
  * `api-server/app/kafka_consumer.py` — `run_consumer`;
  * `web-server/app/kafka_producer.py` — `send_purchase_created` and the
    delivery callback;
  * `web-server/app/main.py`      — the `buy` endpoint and module initialization.

External library behaviour (the broker client, `json.loads`, pymongo) is
modelled by explicit oracles: each polled message carries the result of the
utf-8/json decode of its bytes (`Option Json`, `none` meaning
`UnicodeDecodeError`/`json.JSONDecodeError`), and each storage call carries a
flag saying whether pymongo raises a non-duplicate exception on this attempt.
-/

/-- JSON values as produced by `json.loads` (numbers restricted to the
integers, which is all the schema's fields use). An object is an association
list whose keys are unique, because a Python `dict` has unique keys. -/
inductive Json where
  | null : Json
  | bool : Bool → Json
  | int : Int → Json
  | str : String → Json
  | arr : List Json → Json
  | obj : List (String × Json) → Json

/-- First-match lookup of a key in a JSON object's field list. -/
def jlookup (fields : List (String × Json)) (k : String) : Option Json :=
  match fields with
  | [] => none
  | (k2, v) :: rest => if k2 = k then some v else jlookup rest k

/-- The validated purchase event, as in `api-server/app/models.py`
(`class PurchaseCreatedEvent(BaseModel)`). -/
structure PurchaseCreatedEvent where
  eventId : String
  eventType : String
  eventVersion : Int
  timestamp : String
  userId : String
  itemId : String
  quantity : Int
deriving Repr, DecidableEq

/-- A string-typed field: the JSON value must be a string. -/
def asStr : Option Json → Option String
  | some (Json.str s) => some s
  | _ => none

/-- Accumulate a decimal digit list into a natural number, failing on any
non-digit character. -/
def digitsVal (cs : List Char) : Option Nat :=
  cs.foldl
    (fun acc c =>
      match acc with
      | none => none
      | some n => if c.isDigit then some (n * 10 + (c.toNat - 48)) else none)
    (some 0)

/-- Parse a non-empty all-digit character list as a natural number. -/
def parseDigits (cs : List Char) : Option Nat :=
  if cs.isEmpty then none else digitsVal cs

/-- Parse a decimal integer string — an optional sign followed by one or
more digits — as pydantic v2's default lax mode does when an `int` field
receives a string (e.g. `"2"` coerces to `2`). Remaining lax edge cases of
the library parser (surrounding whitespace, underscore separators, integral
float strings) lie outside the modelled universe, whose numbers are plain
integers. -/
def parseIntStr (s : String) : Option Int :=
  match s.data with
  | [] => none
  | c :: rest =>
    if c = '-' then (parseDigits rest).map (fun n => -(n : Int))
    else if c = '+' then (parseDigits rest).map (fun n => (n : Int))
    else (parseDigits (c :: rest)).map (fun n => (n : Int))

/-- An int-typed field under pydantic v2's default lax mode: a JSON integer
is accepted as-is; a string is coerced when it parses as a signed decimal
integer; everything else — null, booleans (v2 does not coerce bool to int),
arrays, objects — is rejected. -/
def asInt : Option Json → Option Int
  | some (Json.int n) => some n
  | some (Json.str s) => parseIntStr s
  | _ => none

/-- The `eventType` field: `Literal["PurchaseCreated"]` with that literal as
its default — absent defaults, present must equal the literal. -/
def vEventType (fields : List (String × Json)) : Option String :=
  match jlookup fields "eventType" with
  | none => some "PurchaseCreated"
  | some (Json.str s) => if s = "PurchaseCreated" then some s else none
  | some _ => none

/-- The `eventVersion` field: `int = 1` — absent defaults to `1`, present
is validated as an int under the same lax coercion as any int field. -/
def vEventVersion (fields : List (String × Json)) : Option Int :=
  match jlookup fields "eventVersion" with
  | none => some 1
  | some v => asInt (some v)

/-- Embedding of `PurchaseCreatedEvent.model_validate(data)` from
`api-server/app/models.py`: required string fields `eventId`, `timestamp`,
`userId`, `itemId`; required int field `quantity` with `Field(ge=1)`;
`eventType` a literal defaulting to `"PurchaseCreated"`; `eventVersion` an
int defaulting to `1`. Unknown extra fields are ignored (pydantic's default),
and a non-object input is rejected. -/
def model_validate (j : Json) : Option PurchaseCreatedEvent :=
  match j with
  | Json.obj fields =>
    (asStr (jlookup fields "eventId")).bind fun eventId =>
    (vEventType fields).bind fun eventType =>
    (vEventVersion fields).bind fun eventVersion =>
    (asStr (jlookup fields "timestamp")).bind fun timestamp =>
    (asStr (jlookup fields "userId")).bind fun userId =>
    (asStr (jlookup fields "itemId")).bind fun itemId =>
    (asInt (jlookup fields "quantity")).bind fun quantity =>
    if 1 ≤ quantity then
      some ⟨eventId, eventType, eventVersion, timestamp, userId, itemId, quantity⟩
    else
      none
  | _ => none

/-- The field names `model_validate` requires to be present. -/
def requiredNames : List String :=
  ["eventId", "timestamp", "userId", "itemId", "quantity"]

/-- All field names the schema knows about. -/
def schemaNames : List String :=
  requiredNames ++ ["eventType", "eventVersion"]

/-- A MongoDB document as built by the consumer (`purchase_doc` in
`run_consumer`): `_id` is the event's `eventId`. -/
structure Doc where
  id : String
  eventVersion : Int
  eventType : String
  timestamp : String
  userId : String
  itemId : String
  quantity : Int
deriving Repr, DecidableEq

/-- The `purchase_doc` dictionary the consumer builds from a validated
event (`kafka_consumer.py`, the `Transform to Mongo document` block). -/
def purchaseDoc (e : PurchaseCreatedEvent) : Doc :=
  { id := e.eventId
    eventVersion := e.eventVersion
    eventType := e.eventType
    timestamp := e.timestamp
    userId := e.userId
    itemId := e.itemId
    quantity := e.quantity }

/-- Exceptions `collection.insert_one` can raise, as distinguished by
`insert_purchase` in `api-server/app/mongo.py`. -/
inductive MongoErr where
  | duplicateKey : MongoErr
  | otherError : MongoErr
deriving Repr, DecidableEq

/-- Model of pymongo's `collection.insert_one(purchase)` on a collection with
primary key `_id`: a transient/unexpected failure (the `fault` oracle) raises
a non-duplicate exception and leaves the collection unchanged; a document
whose `_id` is already present raises `DuplicateKeyError`; otherwise the
document is appended. -/
def insert_one (store : List Doc) (doc : Doc) (fault : Bool) :
    Except MongoErr (List Doc) :=
  if fault then Except.error MongoErr.otherError
  else if store.any (fun d => d.id = doc.id) then Except.error MongoErr.duplicateKey
  else Except.ok (store ++ [doc])

/-- Embedding of `insert_purchase` from `api-server/app/mongo.py`: returns
`true` when the insert succeeded or the duplicate was ignored, `false` on any
other exception; never re-raises. The second component is the resulting
collection state. -/
def insert_purchase (store : List Doc) (doc : Doc) (fault : Bool) :
    Bool × List Doc :=
  match insert_one store doc fault with
  | Except.ok s => (true, s)
  | Except.error MongoErr.duplicateKey => (true, store)
  | Except.error MongoErr.otherError => (false, store)

/-- The three storage outcomes the spec distinguishes for
`insertIfAbsent` (`Inserted`, `AlreadyPresent`, `Failed`), read off from the
exception behaviour of `insert_one`. -/
inductive StoreOutcome where
  | inserted : StoreOutcome
  | alreadyPresent : StoreOutcome
  | failed : StoreOutcome
deriving Repr, DecidableEq

/-- Classify one `insert_one` attempt as the spec's three outcomes. -/
def storeOutcome (store : List Doc) (doc : Doc) (fault : Bool) : StoreOutcome :=
  match insert_one store doc fault with
  | Except.ok _ => StoreOutcome.inserted
  | Except.error MongoErr.duplicateKey => StoreOutcome.alreadyPresent
  | Except.error MongoErr.otherError => StoreOutcome.failed

/-- The sort order of the read path: `timestamp` descending (newest first). -/
def tsDesc (a b : Doc) : Prop := b.timestamp ≤ a.timestamp

instance : DecidableRel tsDesc := fun a b =>
  inferInstanceAs (Decidable (b.timestamp ≤ a.timestamp))

instance : IsTotal Doc tsDesc := ⟨fun a b => le_total b.timestamp a.timestamp⟩

instance : IsTrans Doc tsDesc := ⟨fun _ _ _ h1 h2 => le_trans h2 h1⟩

/-- Embedding of `get_purchases_by_user` from `api-server/app/mongo.py`:
`list(collection.find({"userId": user_id}).sort("timestamp", -1))` — the
documents whose `userId` equals the query, sorted by `timestamp` descending. -/
def get_purchases_by_user (store : List Doc) (user_id : String) : List Doc :=
  List.insertionSort tsDesc (store.filter (fun d => d.userId = user_id))

/-- One `print` line of the consumer / mongo layer, recorded as an event so
that theorems can speak about what gets logged. -/
inductive LogEvent where
  | kafkaError : LogEvent
  | badPayload : Nat → Nat → LogEvent
  | badSchema : LogEvent
  | received : LogEvent
  | mongoInserted : LogEvent
  | mongoDuplicate : LogEvent
  | mongoInsertFailed : LogEvent
deriving Repr, DecidableEq

/-- What one call to `consumer.poll(1.0)` yields, as distinguished by
`run_consumer`: no message within the timeout, a Kafka-level error
(`msg.error()`), or an application message. A message carries its partition,
its offset, the result of decoding its bytes (`none` models
`UnicodeDecodeError` or `json.JSONDecodeError` from
`msg.value().decode("utf-8")` / `json.loads`), and the storage-fault oracle
for the insert attempt this delivery would trigger. -/
inductive PollItem where
  | noMsg : PollItem
  | kafkaError : PollItem
  | message : Nat → Nat → Option Json → Bool → PollItem

/-- The observable state of the consumer: the committed offset position
(`some (o+1)` after committing the message at offset `o`; the consumer runs
one partition in this model), the Mongo collection, and ghost traces of every
commit, every `insert_purchase` call with its outcome, and every log line. -/
structure ConsumerState where
  committed : Option Nat
  store : List Doc
  commitTrace : List Nat
  insertAttempts : List Doc
  insertOutcomes : List StoreOutcome
  logs : List LogEvent
deriving Repr, DecidableEq

/-- Consumer start state over a given collection: nothing committed yet. -/
def initState (store : List Doc) : ConsumerState :=
  { committed := none, store := store, commitTrace := [], insertAttempts := []
    insertOutcomes := [], logs := [] }

/-- Record a `consumer.commit(msg)` for the message at offset `o`: the
committed position moves just past it. -/
def doCommit (st : ConsumerState) (o : Nat) : ConsumerState :=
  { st with committed := some (o + 1), commitTrace := st.commitTrace ++ [o + 1] }

/-- The body of `run_consumer`'s `while` loop for one poll result
(`api-server/app/kafka_consumer.py`): skip an empty poll; log and continue on
a Kafka-level error; on decode failure log and commit past the poison
message; on schema-validation failure likewise; otherwise build
`purchase_doc`, call `insert_purchase`, and commit only when it returned
`True`. -/
def consumeStep (st : ConsumerState) (item : PollItem) : ConsumerState :=
  match item with
  | PollItem.noMsg => st
  | PollItem.kafkaError => { st with logs := st.logs ++ [LogEvent.kafkaError] }
  | PollItem.message p o payload fault =>
    match payload with
    | none =>
      doCommit { st with logs := st.logs ++ [LogEvent.badPayload p o] } o
    | some data =>
      match model_validate data with
      | none =>
        doCommit { st with logs := st.logs ++ [LogEvent.badSchema] } o
      | some event =>
        let doc := purchaseDoc event
        let res := insert_purchase st.store doc fault
        let outcome := storeOutcome st.store doc fault
        let mongoLog := match outcome with
          | StoreOutcome.inserted => LogEvent.mongoInserted
          | StoreOutcome.alreadyPresent => LogEvent.mongoDuplicate
          | StoreOutcome.failed => LogEvent.mongoInsertFailed
        let st2 := { st with
          store := res.2
          insertAttempts := st.insertAttempts ++ [doc]
          insertOutcomes := st.insertOutcomes ++ [outcome]
          logs := st.logs ++ [LogEvent.received, mongoLog] }
        if res.1 then doCommit st2 o else st2

/-- Embedding of the `while not stop_event.is_set()` loop of `run_consumer`.
`stop i` is whether the stop event is set when the loop reaches its `i`-th
poll boundary; `items` is the (finite prefix of the) sequence of poll
results. Returns the final state, the boundary index at which the run ended,
and whether it ended because the stop signal was observed (`true`) or merely
because the modelled trace ran out while the loop was still running
(`false`). -/
def run_consumer (stop : Nat → Bool) :
    List PollItem → Nat → ConsumerState → ConsumerState × Nat × Bool
  | items, i, st =>
    if stop i then (st, i, true)
    else
      match items with
      | [] => (st, i, false)
      | item :: rest => run_consumer stop rest (i + 1) (consumeStep st item)


/-- UTF-8 encoding of one character (byte values as naturals), following the
standard 1–4 byte scheme used by Python's `str.encode("utf-8")`. -/
def utf8EncodeChar (c : Char) : List Nat :=
  let n := c.toNat
  if n < 0x80 then [n]
  else if n < 0x800 then
    [0xC0 + n / 64, 0x80 + n % 64]
  else if n < 0x10000 then
    [0xE0 + n / 4096, 0x80 + n / 64 % 64, 0x80 + n % 64]
  else
    [0xF0 + n / 262144, 0x80 + n / 4096 % 64, 0x80 + n / 64 % 64, 0x80 + n % 64]

/-- UTF-8 encoding of a string, as in Python's `"...".encode("utf-8")`. -/
def encodeUtf8 (s : String) : List Nat :=
  s.data.foldr (fun c acc => utf8EncodeChar c ++ acc) []

/-- The broker message key computed by `send_purchase_created`
(`web-server/app/kafka_producer.py`): `event["userId"].encode("utf-8")`. -/
def producerKey (e : PurchaseCreatedEvent) : List Nat :=
  encodeUtf8 e.userId

/-- Producer-side log lines, from `_delivery_report` in
`web-server/app/kafka_producer.py`. -/
inductive ProducerLog where
  | deliveryFailed : ProducerLog
  | delivered : ProducerLog
deriving Repr, DecidableEq

/-- Broker-side environment for one `produce`/`flush` cycle:
`queueFull` models `producer.produce` itself raising (local queue full);
`deliveryError` models the broker-level delivery failure (timeout,
not-leader, …) that is reported to the `_delivery_report` callback when
`flush` serves it. -/
structure ProducerEnv where
  queueFull : Bool
  deliveryError : Bool

/-- Embedding of `send_purchase_created(producer, topic, event)` from
`web-server/app/kafka_producer.py`. `produce()` queues the message (raising
only if the local queue is full); `flush(5)` then serves the delivery
callback, which prints the delivery report; the callback's error argument is
never re-raised and `flush`'s return value is discarded, so the function
returns normally whenever `produce` itself did not raise. On success the
function's value is the message key and the logs that were printed. -/
def send_purchase_created (env : ProducerEnv) (e : PurchaseCreatedEvent) :
    Except String (List Nat × List ProducerLog) :=
  if env.queueFull then Except.error "BufferError"
  else
    Except.ok (producerKey e,
      [if env.deliveryError then ProducerLog.deliveryFailed else ProducerLog.delivered])

/-- HTTP responses of the `POST /buy` endpoint. -/
inductive BuyResponse where
  | accepted : String → BuyResponse
  | serverError : BuyResponse
deriving Repr, DecidableEq

/-- Request-body validation of `BuyRequest` in `web-server/app/models.py`:
`userId` and `itemId` are unconstrained strings, `quantity` has
`Field(ge=1)`. -/
def buyRequestValid (userId itemId : String) (quantity : Int) : Bool :=
  let _ := userId
  let _ := itemId
  1 ≤ quantity

/-- The event the `buy` endpoint constructs from a request
(`web-server/app/main.py`): a fresh `eventId`, the current timestamp, and the
request's fields, with the model's defaults for `eventType`/`eventVersion`. -/
def buyEvent (eventId timestamp userId itemId : String) (quantity : Int) :
    PurchaseCreatedEvent :=
  { eventId := eventId, eventType := "PurchaseCreated", eventVersion := 1
    timestamp := timestamp, userId := userId, itemId := itemId
    quantity := quantity }

/-- Embedding of the `buy` handler (`web-server/app/main.py`): publish the
event; any exception from `send_purchase_created` becomes an HTTP 500, and
otherwise the endpoint reports `{"status": "accepted", "eventId": ...}`. -/
def buy (env : ProducerEnv) (e : PurchaseCreatedEvent) : BuyResponse :=
  match send_purchase_created env e with
  | Except.ok _ => BuyResponse.accepted e.eventId
  | Except.error _ => BuyResponse.serverError

/-- One module-level Python statement, for the import-time model of
`web-server/app/main.py`: the global names it reads, the global names it
binds, and the HTTP route it registers (for `@app.<method>` handler
definitions and `app.mount`). -/
structure PyStmt where
  uses : List String
  binds : List String
  route : Option String

/-- Execute module-level statements in order, as the Python interpreter does
on import: a statement that reads a name not yet bound raises `NameError`
with that name and aborts the module body; otherwise its bindings and route
registration take effect. Returns the `NameError` name (if any) and the
routes that were actually registered before the failure. -/
def runModule : List PyStmt → List String → List String →
    Option String × List String
  | [], _, routes => (none, routes)
  | s :: rest, env, routes =>
    match s.uses.find? (fun n => !(env.contains n)) with
    | some n => (some n, routes)
    | none => runModule rest (env ++ s.binds) (routes ++ s.route.toList)

/-- The module body of `web-server/app/main.py`, statement by statement:
the imports, `UI_DIR = Path("/app/web-ui")`, the `app.mount("/ui", ...)` call
(line 28), `app = FastAPI(...)` (line 30), `producer = None`, and the
decorated handler definitions for `/health`, `/buy`, `/getAllBoughtItems`
and the startup hook. -/
def webServerMainStmts : List PyStmt :=
  [ { uses := [], binds := ["datetime", "timezone"], route := none }
  , { uses := [], binds := ["uuid4"], route := none }
  , { uses := [], binds := ["FastAPI", "HTTPException"], route := none }
  , { uses := [], binds := ["get_all_bought_items"], route := none }
  , { uses := [], binds := ["KAFKA_TOPIC"], route := none }
  , { uses := [], binds := ["create_producer", "send_purchase_created"], route := none }
  , { uses := [], binds := ["BuyRequest", "PurchaseCreatedEvent"], route := none }
  , { uses := [], binds := ["Path"], route := none }
  , { uses := [], binds := ["StaticFiles"], route := none }
  , { uses := ["Path"], binds := ["UI_DIR"], route := none }
  , { uses := ["app", "StaticFiles", "UI_DIR"], binds := [], route := some "/ui" }
  , { uses := ["FastAPI"], binds := ["app"], route := none }
  , { uses := [], binds := ["producer"], route := none }
  , { uses := ["app"], binds := ["on_startup"], route := none }
  , { uses := ["app"], binds := ["health"], route := some "/health" }
  , { uses := ["app", "BuyRequest"], binds := ["buy"], route := some "/buy" }
  , { uses := ["app"], binds := ["get_all"], route := some "/getAllBoughtItems" }
  ]

/-- Process a finite list of poll results in order (the loop body, stop
signal aside). -/
def processAll (st : ConsumerState) (items : List PollItem) : ConsumerState :=
  items.foldl consumeStep st

/-- A concrete well-formed wire payload, used to evaluate the claims on a
closed input. -/
def sampleJson : Json :=
  Json.obj
    [("eventId", Json.str "e1"), ("eventType", Json.str "PurchaseCreated"),
     ("eventVersion", Json.int 1), ("timestamp", Json.str "2026-01-01"),
     ("userId", Json.str "u1"), ("itemId", Json.str "sku-1"),
     ("quantity", Json.int 2)]

/-- The event `sampleJson` validates to. -/
def sampleEvent : PurchaseCreatedEvent :=
  ⟨"e1", "PurchaseCreated", 1, "2026-01-01", "u1", "sku-1", 2⟩

/-! ### Helper lemmas -/

theorem utf8EncodeChar_ne_nil (c : Char) : utf8EncodeChar c ≠ [] := by
  simp only [utf8EncodeChar]
  split
  · simp
  · split
    · simp
    · split <;> simp

theorem encodeUtf8_eq_nil_iff (s : String) : encodeUtf8 s = [] ↔ s = "" := by
  obtain ⟨data⟩ := s
  cases data with
  | nil => exact ⟨fun _ => rfl, fun _ => rfl⟩
  | cons c rest =>
    simp only [encodeUtf8, List.foldr_cons]
    constructor
    · intro h
      exact absurd (List.append_eq_nil.mp h).1 (utf8EncodeChar_ne_nil c)
    · intro h
      have := congrArg String.data h
      simp at this

/-! ### Claim theorems -/

/-- C10: importing `web-server/app/main.py` executes `app.mount(...)` (line
28) before `app = FastAPI(...)` (line 30); the name `app` is unbound at that
point, so module initialization stops with `NameError` on `app` and no route
— `/ui`, `/health`, `/buy`, `/getAllBoughtItems` — is ever registered, hence
none of the web-server endpoints can be served. -/
theorem c10_webserver_import_fails :
    runModule webServerMainStmts [] [] = (some "app", []) := by rfl

/-- C3 (code behaviour at the failing input): when `produce` succeeds but the
broker-level delivery fails — the failure being reported to the
`_delivery_report` callback during `flush` — `send_purchase_created` still
returns normally, merely logging the failure, and the `buy` endpoint answers
`accepted` instead of a server error. Only a local queue-full `BufferError`
raised by `produce` itself reaches the caller as a 500. -/
theorem c3_delivery_failure_returns_accepted :
    send_purchase_created ⟨false, true⟩ (buyEvent "e1" "t" "u1" "sku-1" 2) =
      Except.ok (producerKey (buyEvent "e1" "t" "u1" "sku-1" 2),
        [ProducerLog.deliveryFailed]) ∧
    buy ⟨false, true⟩ (buyEvent "e1" "t" "u1" "sku-1" 2) =
      BuyResponse.accepted "e1" ∧
    buy ⟨true, false⟩ (buyEvent "e1" "t" "u1" "sku-1" 2) =
      BuyResponse.serverError :=
  ⟨rfl, rfl, rfl⟩

/-- C7 counterexample: a `BuyRequest` with an empty `userId` passes request
validation, and the broker message key `send_purchase_created` computes for
the resulting event is the empty byte string — refuting the claim that the
key of every published event is non-empty. -/
theorem c7_counterexample :
    buyRequestValid "" "sku-1" 1 = true ∧
    producerKey (buyEvent "e1" "2026-01-01T00:00:00+00:00" "" "sku-1" 1) = [] :=
  ⟨rfl, rfl⟩

/-- C7 (amended): the broker message key is exactly the UTF-8 encoding of the
event's `userId` — hence two events with the same `userId` carry identical
keys — and it is empty precisely when `userId` is the empty string. -/
theorem c7_key_is_utf8_of_userId (e1 e2 : PurchaseCreatedEvent) :
    producerKey e1 = encodeUtf8 e1.userId ∧
    (producerKey e1 = [] ↔ e1.userId = "") ∧
    (e1.userId = e2.userId → producerKey e1 = producerKey e2) := by
  refine ⟨rfl, encodeUtf8_eq_nil_iff _, fun h => ?_⟩
  simp only [producerKey, h]

/-- C7 witness: two concrete events sharing `userId` `"u1"` get identical
message keys. -/
theorem c7_key_is_utf8_of_userId_witness :
    producerKey (buyEvent "e1" "t1" "u1" "a" 1) =
      producerKey (buyEvent "e2" "t2" "u1" "b" 2) :=
  (c7_key_is_utf8_of_userId (buyEvent "e1" "t1" "u1" "a" 1)
    (buyEvent "e2" "t2" "u1" "b" 2)).2.2 rfl

/-- C9: `insert_purchase` absorbs every storage error into its boolean
result: its value is `true` exactly when the attempt did not fail with a
non-duplicate exception, a duplicate-key outcome is reported as success with
the collection unchanged, and any other exception yields `false` with the
collection unchanged — so the consumer's persistence step never raises. -/
theorem c9_insert_purchase_absorbs_errors (store : List Doc) (doc : Doc)
    (fault : Bool) :
    ((insert_purchase store doc fault).1 = true ↔
      storeOutcome store doc fault ≠ StoreOutcome.failed) ∧
    (storeOutcome store doc fault = StoreOutcome.alreadyPresent →
      insert_purchase store doc fault = (true, store)) ∧
    (fault = true → insert_purchase store doc fault = (false, store)) := by
  cases fault <;>
    cases h : store.any (fun d => d.id = doc.id) <;>
      simp [insert_purchase, storeOutcome, insert_one, h]

/-- C9 witness: a faulted insert on the empty collection returns `false` and
leaves the collection empty. -/
theorem c9_insert_purchase_absorbs_errors_witness :
    insert_purchase [] (purchaseDoc (buyEvent "e1" "t" "u" "i" 1)) true =
      (false, []) :=
  (c9_insert_purchase_absorbs_errors [] (purchaseDoc (buyEvent "e1" "t" "u" "i" 1))
    true).2.2 rfl

/-- C8: the read path returns exactly the stored documents whose `userId`
equals the queried user — same membership and same multiplicities as the
filtered collection — sorted by `timestamp` descending (newest first). -/
theorem c8_read_path_exact_and_sorted (store : List Doc) (u : String) :
    (∀ d, d ∈ get_purchases_by_user store u ↔ d ∈ store ∧ d.userId = u) ∧
    List.Perm (get_purchases_by_user store u)
      (store.filter (fun d => d.userId = u)) ∧
    List.Sorted tsDesc (get_purchases_by_user store u) := by
  refine ⟨fun d => ?_, List.perm_insertionSort tsDesc _,
    List.sorted_insertionSort tsDesc _⟩
  rw [get_purchases_by_user, List.mem_insertionSort, List.mem_filter]
  simp

theorem asStr_none : asStr none = none := rfl

theorem asInt_none : asInt none = none := rfl

theorem model_validate_some_iff (fields : List (String × Json))
    (e : PurchaseCreatedEvent) :
    model_validate (Json.obj fields) = some e ↔
      asStr (jlookup fields "eventId") = some e.eventId ∧
      vEventType fields = some e.eventType ∧
      vEventVersion fields = some e.eventVersion ∧
      asStr (jlookup fields "timestamp") = some e.timestamp ∧
      asStr (jlookup fields "userId") = some e.userId ∧
      asStr (jlookup fields "itemId") = some e.itemId ∧
      asInt (jlookup fields "quantity") = some e.quantity ∧
      1 ≤ e.quantity := by
  obtain ⟨a, b, c, d, u, i, q⟩ := e
  simp only [model_validate, Option.bind_eq_some, Option.ite_none_right_eq_some,
    Option.some.injEq, PurchaseCreatedEvent.mk.injEq]
  constructor
  · rintro ⟨a1, h1, b1, h2, c1, h3, d1, h4, u1, h5, i1, h6, q1, h7, hq,
      rfl, rfl, rfl, rfl, rfl, rfl, rfl⟩
    exact ⟨h1, h2, h3, h4, h5, h6, h7, hq⟩
  · rintro ⟨h1, h2, h3, h4, h5, h6, h7, hq⟩
    exact ⟨_, h1, _, h2, _, h3, _, h4, _, h5, _, h6, _, h7, hq,
      rfl, rfl, rfl, rfl, rfl, rfl, rfl⟩

theorem jlookup_append_single (fields : List (String × Json)) (k n : String)
    (v : Json) (h : n ≠ k) :
    jlookup (fields ++ [(k, v)]) n = jlookup fields n := by
  induction fields with
  | nil => simp [jlookup, Ne.symm h]
  | cons p rest ih =>
    obtain ⟨k2, v2⟩ := p
    simp only [List.cons_append, jlookup]
    split <;> simp [ih]

/-- C6 counterexample: pydantic v2's default lax mode coerces numeric
strings to int, so the payload whose `quantity` is the JSON *string* `"2"` —
a type mismatch for the int field — is accepted by validation, with
`quantity = 2`; this refutes the claim that schema validation rejects every
type mismatch. -/
theorem c6_counterexample :
    model_validate (Json.obj
      [("eventId", Json.str "e1"), ("timestamp", Json.str "2026-01-01"),
       ("userId", Json.str "u1"), ("itemId", Json.str "sku-1"),
       ("quantity", Json.str "2")]) =
      some ⟨"e1", "PurchaseCreated", 1, "2026-01-01", "u1", "sku-1", 2⟩ := by
  decide

/-- C6 (amended): schema validation rejects any input missing one of the
required fields (`eventId`, `timestamp`, `userId`, `itemId`, `quantity`),
any input whose `quantity` is an integer below 1, any non-string value for
the string fields, and any `quantity` that is neither a JSON integer nor a
JSON string — but a string `quantity` that parses as a signed decimal
integer is coerced to that integer (pydantic v2 lax mode) rather than
rejected; validation is insensitive to unknown extra fields; and when
`eventVersion` is absent a successfully validated event carries
`eventVersion = 1`. -/
theorem c6_schema_validation :
    (∀ fields name, name ∈ requiredNames → jlookup fields name = none →
      model_validate (Json.obj fields) = none) ∧
    (∀ fields (q : Int), jlookup fields "quantity" = some (Json.int q) →
      q < 1 → model_validate (Json.obj fields) = none) ∧
    (∀ fields name v, name ∈ ["eventId", "timestamp", "userId", "itemId"] →
      jlookup fields name = some v → (∀ s, v ≠ Json.str s) →
      model_validate (Json.obj fields) = none) ∧
    (∀ fields v, jlookup fields "quantity" = some v →
      (∀ n : Int, v ≠ Json.int n) → (∀ s : String, v ≠ Json.str s) →
      model_validate (Json.obj fields) = none) ∧
    (∀ fields s (q : Int) e, jlookup fields "quantity" = some (Json.str s) →
      parseIntStr s = some q → model_validate (Json.obj fields) = some e →
      e.quantity = q) ∧
    (∀ fields k v, k ∉ schemaNames →
      model_validate (Json.obj (fields ++ [(k, v)])) =
        model_validate (Json.obj fields)) ∧
    (∀ fields e, jlookup fields "eventVersion" = none →
      model_validate (Json.obj fields) = some e → e.eventVersion = 1) := by
  refine ⟨?_, ?_, ?_, ?_, ?_, ?_, ?_⟩
  · intro fields name hmem hnone
    cases hmv : model_validate (Json.obj fields) with
    | none => rfl
    | some e =>
      exfalso
      rw [model_validate_some_iff] at hmv
      simp only [requiredNames, List.mem_cons, List.not_mem_nil, or_false] at hmem
      rcases hmem with rfl | rfl | rfl | rfl | rfl
      · rw [hnone, asStr_none] at hmv; simp at hmv
      · have h := hmv.2.2.2.1; rw [hnone, asStr_none] at h; simp at h
      · have h := hmv.2.2.2.2.1; rw [hnone, asStr_none] at h; simp at h
      · have h := hmv.2.2.2.2.2.1; rw [hnone, asStr_none] at h; simp at h
      · have h := hmv.2.2.2.2.2.2.1; rw [hnone, asInt_none] at h; simp at h
  · intro fields q hq hlt
    cases hmv : model_validate (Json.obj fields) with
    | none => rfl
    | some e =>
      exfalso
      rw [model_validate_some_iff] at hmv
      have h := hmv.2.2.2.2.2.2.1
      rw [hq] at h
      simp only [asInt, Option.some.injEq] at h
      have := hmv.2.2.2.2.2.2.2
      omega
  · intro fields name v hmem hv hns
    have hstr : asStr (some v) = none := by
      cases v with
      | str s => exact absurd rfl (hns s)
      | null => rfl
      | bool b => rfl
      | int n => rfl
      | arr l => rfl
      | obj fs => rfl
    cases hmv : model_validate (Json.obj fields) with
    | none => rfl
    | some e =>
      exfalso
      rw [model_validate_some_iff] at hmv
      simp only [List.mem_cons, List.not_mem_nil, or_false] at hmem
      rcases hmem with rfl | rfl | rfl | rfl
      · have h := hmv.1; rw [hv, hstr] at h; simp at h
      · have h := hmv.2.2.2.1; rw [hv, hstr] at h; simp at h
      · have h := hmv.2.2.2.2.1; rw [hv, hstr] at h; simp at h
      · have h := hmv.2.2.2.2.2.1; rw [hv, hstr] at h; simp at h
  · intro fields v hv hni hns
    have hint : asInt (some v) = none := by
      cases v with
      | int n => exact absurd rfl (hni n)
      | str s => exact absurd rfl (hns s)
      | null => rfl
      | bool b => rfl
      | arr l => rfl
      | obj fs => rfl
    cases hmv : model_validate (Json.obj fields) with
    | none => rfl
    | some e =>
      exfalso
      rw [model_validate_some_iff] at hmv
      have h := hmv.2.2.2.2.2.2.1
      rw [hv, hint] at h
      simp at h
  · intro fields s q e hq hparse hmv
    rw [model_validate_some_iff] at hmv
    have h := hmv.2.2.2.2.2.2.1
    rw [hq] at h
    simp only [asInt, hparse, Option.some.injEq] at h
    exact h.symm
  · intro fields k v hk
    simp only [schemaNames, requiredNames, List.mem_append, List.mem_cons,
      List.not_mem_nil, or_false, not_or] at hk
    obtain ⟨⟨h1, h2, h3, h4, h5⟩, h6, h7⟩ := hk
    simp only [model_validate, vEventType, vEventVersion,
      jlookup_append_single fields k "eventId" v (Ne.symm h1),
      jlookup_append_single fields k "timestamp" v (Ne.symm h2),
      jlookup_append_single fields k "userId" v (Ne.symm h3),
      jlookup_append_single fields k "itemId" v (Ne.symm h4),
      jlookup_append_single fields k "quantity" v (Ne.symm h5),
      jlookup_append_single fields k "eventType" v (Ne.symm h6),
      jlookup_append_single fields k "eventVersion" v (Ne.symm h7)]
  · intro fields e hnone hmv
    rw [model_validate_some_iff] at hmv
    have h := hmv.2.2.1
    simp only [vEventVersion, hnone, Option.some.injEq] at h
    exact h.symm

/-- C6 witness: an input carrying only `eventId` (so missing the required
`timestamp`) is rejected. -/
theorem c6_schema_validation_witness :
    model_validate (Json.obj [("eventId", Json.str "e1")]) = none :=
  c6_schema_validation.1 [("eventId", Json.str "e1")] "timestamp"
    (by decide) rfl

theorem run_consumer_stop_eq (stop : Nat → Bool) (items : List PollItem)
    (i : Nat) (st : ConsumerState) (h : stop i = true) :
    run_consumer stop items i st = (st, i, true) := by
  unfold run_consumer
  simp [h]

theorem run_consumer_nil (stop : Nat → Bool) (i : Nat) (st : ConsumerState)
    (h : stop i = false) :
    run_consumer stop [] i st = (st, i, false) := by
  unfold run_consumer
  simp [h]

theorem run_consumer_cons (stop : Nat → Bool) (x : PollItem)
    (rest : List PollItem) (i : Nat) (st : ConsumerState) (h : stop i = false) :
    run_consumer stop (x :: rest) i st =
      run_consumer stop rest (i + 1) (consumeStep st x) := by
  conv_lhs => unfold run_consumer
  simp [h]

theorem run_consumer_no_stop (stop : Nat → Bool) (items : List PollItem) :
    ∀ (i : Nat) (st : ConsumerState),
      (∀ b, i ≤ b → b ≤ i + items.length → stop b = false) →
      run_consumer stop items i st =
        (processAll st items, i + items.length, false) := by
  induction items with
  | nil =>
    intro i st h
    rw [run_consumer_nil _ _ _ (h i le_rfl (by simp))]
    simp [processAll]
  | cons x rest ih =>
    intro i st h
    rw [run_consumer_cons _ _ _ _ _ (h i le_rfl (by simp))]
    rw [ih (i + 1) _ (fun b hb1 hb2 => h b (by omega) (by simp at hb2 ⊢; omega))]
    simp only [processAll, List.foldl_cons, List.length_cons, Prod.mk.injEq]
    exact ⟨trivial, by omega, trivial⟩

theorem run_consumer_first_stop (stop : Nat → Bool) (items : List PollItem) :
    ∀ (k i : Nat) (st : ConsumerState), k ≤ items.length →
      stop (i + k) = true → (∀ b, i ≤ b → b < i + k → stop b = false) →
      run_consumer stop items i st =
        (processAll st (items.take k), i + k, true) := by
  induction items with
  | nil =>
    intro k i st hk hstop hbefore
    have hk0 : k = 0 := by simpa using hk
    subst hk0
    rw [run_consumer_stop_eq _ _ _ _ (by simpa using hstop)]
    simp [processAll]
  | cons x rest ih =>
    intro k i st hk hstop hbefore
    cases k with
    | zero =>
      rw [run_consumer_stop_eq _ _ _ _ (by simpa using hstop)]
      simp [processAll]
    | succ k2 =>
      have h0 : stop i = false := hbefore i le_rfl (by omega)
      rw [run_consumer_cons _ _ _ _ _ h0]
      rw [ih k2 (i + 1) _ (by simpa using hk)
        (by rw [show i + 1 + k2 = i + (k2 + 1) by omega]; exact hstop)
        (fun b hb1 hb2 => hbefore b (by omega) (by omega))]
      simp only [processAll, List.take_succ_cons, List.foldl_cons, Prod.mk.injEq]
      exact ⟨trivial, by omega, trivial⟩

/-- C5: the consumer loop never terminates of its own accord — whatever the
polled sequence contains (empty polls, Kafka-level errors, undecodable or
schema-invalid payloads, persistence failures), if the stop signal is never
set the loop processes every item of the trace and is still running at its
end; and it exits exactly at the first poll boundary where the stop signal
is observed, having processed exactly the items before that boundary. -/
theorem c5_loop_exits_only_on_stop (stop : Nat → Bool) (items : List PollItem)
    (st : ConsumerState) :
    ((∀ b, b ≤ items.length → stop b = false) →
      run_consumer stop items 0 st =
        (processAll st items, items.length, false)) ∧
    (∀ k, k ≤ items.length → stop k = true → (∀ b, b < k → stop b = false) →
      run_consumer stop items 0 st = (processAll st (items.take k), k, true)) := by
  constructor
  · intro h
    have hh := run_consumer_no_stop stop items 0 st
      (fun b _ hb2 => h b (by omega))
    simpa using hh
  · intro k hk hs hb
    have hh := run_consumer_first_stop stop items k 0 st hk
      (by simpa using hs) (fun b _ hb2 => hb b (by omega))
    simpa using hh

/-- C5 witness: with the stop signal first set at boundary 2, a three-item
trace is processed for exactly its first two items and the loop exits with
the stop flag observed. -/
theorem c5_loop_exits_only_on_stop_witness :
    run_consumer (fun b => decide (b = 2))
      [PollItem.kafkaError, PollItem.noMsg, PollItem.noMsg] 0 (initState []) =
      (processAll (initState [])
        ([PollItem.kafkaError, PollItem.noMsg, PollItem.noMsg].take 2), 2, true) :=
  (c5_loop_exits_only_on_stop _ _ _).2 2 (by decide) (by decide)
    (by decide)

/-- C1: a polled message whose bytes fail utf-8/json decoding, or whose
decoded value fails schema validation, is handled as a poison message: the
consumer commits the offset just past it, never calls `insert_purchase` for
it (the collection and the insert trace are untouched), logs exactly one
failure line, and the loop continues with the remaining trace. -/
theorem c1_poison_skipped (st : ConsumerState) (p o : Nat)
    (payload : Option Json) (fault : Bool)
    (hbad : payload = none ∨ ∃ j, payload = some j ∧ model_validate j = none) :
    (consumeStep st (PollItem.message p o payload fault)).committed =
      some (o + 1) ∧
    (consumeStep st (PollItem.message p o payload fault)).commitTrace =
      st.commitTrace ++ [o + 1] ∧
    (consumeStep st (PollItem.message p o payload fault)).store = st.store ∧
    (consumeStep st (PollItem.message p o payload fault)).insertAttempts =
      st.insertAttempts ∧
    ((consumeStep st (PollItem.message p o payload fault)).logs =
        st.logs ++ [LogEvent.badPayload p o] ∨
      (consumeStep st (PollItem.message p o payload fault)).logs =
        st.logs ++ [LogEvent.badSchema]) ∧
    (∀ stop (rest : List PollItem) i, stop i = false →
      run_consumer stop (PollItem.message p o payload fault :: rest) i st =
        run_consumer stop rest (i + 1)
          (consumeStep st (PollItem.message p o payload fault))) := by
  rcases hbad with rfl | ⟨j, rfl, hval⟩
  · exact ⟨rfl, rfl, rfl, rfl, Or.inl rfl,
      fun stop rest i h => run_consumer_cons stop _ rest i st h⟩
  · refine ⟨?_, ?_, ?_, ?_, Or.inr ?_,
      fun stop rest i h => run_consumer_cons stop _ rest i st h⟩ <;>
    simp [consumeStep, hval, doCommit]

/-- C1 witness: an undecodable message at offset 5 is committed past, with
the collection untouched. -/
theorem c1_poison_skipped_witness :
    (consumeStep (initState []) (PollItem.message 0 5 none false)).committed =
      some 6 ∧
    (consumeStep (initState []) (PollItem.message 0 5 none false)).store = [] ∧
    (consumeStep (initState []) (PollItem.message 0 5 none false)).insertAttempts
      = [] := by
  have h := c1_poison_skipped (initState []) 0 5 none false (Or.inl rfl)
  exact ⟨h.1, h.2.2.1, h.2.2.2.1⟩

/-- C2: for a message that decodes and validates, the consumer commits the
offset exactly when `insert_purchase` reports success (which a fault-free
attempt always does, whether inserted or already present); when persistence
fails, the committed offset, the commit trace and the collection are left
unchanged; and a failed attempt followed by a successful retry of the same
message advances the committed offset exactly once. -/
theorem c2_commit_iff_persist (st : ConsumerState) (p o : Nat) (j : Json)
    (e : PurchaseCreatedEvent) (hval : model_validate j = some e) :
    ((insert_purchase st.store (purchaseDoc e) false).1 = true) ∧
    (∀ fault,
      ((consumeStep st (PollItem.message p o (some j) fault)).commitTrace =
          st.commitTrace ++ [o + 1] ↔
        (insert_purchase st.store (purchaseDoc e) fault).1 = true)) ∧
    (∀ fault, (insert_purchase st.store (purchaseDoc e) fault).1 = false →
      (consumeStep st (PollItem.message p o (some j) fault)).commitTrace =
          st.commitTrace ∧
      (consumeStep st (PollItem.message p o (some j) fault)).committed =
          st.committed ∧
      (consumeStep st (PollItem.message p o (some j) fault)).store = st.store) ∧
    ((consumeStep (consumeStep st (PollItem.message p o (some j) true))
        (PollItem.message p o (some j) false)).commitTrace =
      st.commitTrace ++ [o + 1]) := by
  have hins : ∀ s : List Doc, (insert_purchase s (purchaseDoc e) false).1 = true := by
    intro s
    cases h : s.any (fun d => d.id = (purchaseDoc e).id) <;>
      simp [insert_purchase, insert_one, h]
  refine ⟨hins st.store, ?_, ?_, ?_⟩
  · intro fault
    cases fault
    · simp [consumeStep, hval, doCommit, hins st.store]
    · simp [consumeStep, hval, doCommit, insert_purchase, insert_one]
  · intro fault hfail
    cases fault
    · rw [hins st.store] at hfail; cases hfail
    · refine ⟨?_, ?_, ?_⟩ <;> simp [consumeStep, hval, insert_purchase, insert_one]
  · have hstep1 :
        (consumeStep st (PollItem.message p o (some j) true)).commitTrace =
          st.commitTrace := by
      simp [consumeStep, hval, insert_purchase, insert_one]
    have hsucc : ∀ s : ConsumerState,
        (consumeStep s (PollItem.message p o (some j) false)).commitTrace =
          s.commitTrace ++ [o + 1] := by
      intro s
      cases h : s.store.any (fun d => d.id = (purchaseDoc e).id) <;>
        simp [consumeStep, hval, doCommit, insert_purchase, insert_one, h]
    rw [hsucc, hstep1]

/-- C2 witness: on the concrete sample message at offset 7, a fault-free
insert reports success, and a failed attempt followed by a successful retry
commits the offset exactly once. -/
theorem c2_commit_iff_persist_witness :
    (insert_purchase (initState []).store (purchaseDoc sampleEvent) false).1 =
      true ∧
    ((consumeStep (consumeStep (initState [])
        (PollItem.message 0 7 (some sampleJson) true))
        (PollItem.message 0 7 (some sampleJson) false)).commitTrace =
      (initState []).commitTrace ++ [7 + 1]) := by
  have h := c2_commit_iff_persist (initState []) 0 7 sampleJson sampleEvent
    (by decide)
  exact ⟨h.1, h.2.2.2⟩

theorem consumeStep_fresh (st : ConsumerState) (p o : Nat) (j : Json)
    (e : PurchaseCreatedEvent) (hval : model_validate j = some e)
    (habs : st.store.any (fun d => d.id = (purchaseDoc e).id) = false) :
    consumeStep st (PollItem.message p o (some j) false) =
      { committed := some (o + 1)
        store := st.store ++ [purchaseDoc e]
        commitTrace := st.commitTrace ++ [o + 1]
        insertAttempts := st.insertAttempts ++ [purchaseDoc e]
        insertOutcomes := st.insertOutcomes ++ [StoreOutcome.inserted]
        logs := st.logs ++ [LogEvent.received, LogEvent.mongoInserted] } := by
  simp [consumeStep, hval, insert_purchase, insert_one, storeOutcome, doCommit,
    habs]

theorem consumeStep_dup (st : ConsumerState) (p o : Nat) (j : Json)
    (e : PurchaseCreatedEvent) (hval : model_validate j = some e)
    (hpres : st.store.any (fun d => d.id = (purchaseDoc e).id) = true) :
    consumeStep st (PollItem.message p o (some j) false) =
      { committed := some (o + 1)
        store := st.store
        commitTrace := st.commitTrace ++ [o + 1]
        insertAttempts := st.insertAttempts ++ [purchaseDoc e]
        insertOutcomes := st.insertOutcomes ++ [StoreOutcome.alreadyPresent]
        logs := st.logs ++ [LogEvent.received, LogEvent.mongoDuplicate] } := by
  simp [consumeStep, hval, insert_purchase, insert_one, storeOutcome, doCommit,
    hpres]

theorem processAll_dup (p o : Nat) (j : Json) (e : PurchaseCreatedEvent)
    (hval : model_validate j = some e) (m : Nat) :
    ∀ st : ConsumerState,
      st.store.any (fun d => d.id = (purchaseDoc e).id) = true →
      (processAll st
        (List.replicate m (PollItem.message p o (some j) false))).store =
        st.store ∧
      (processAll st
        (List.replicate m (PollItem.message p o (some j) false))).insertOutcomes =
        st.insertOutcomes ++ List.replicate m StoreOutcome.alreadyPresent ∧
      (processAll st
        (List.replicate m (PollItem.message p o (some j) false))).commitTrace =
        st.commitTrace ++ List.replicate m (o + 1) := by
  induction m with
  | zero => intro st _; simp [processAll]
  | succ m2 ih =>
    intro st h
    have hstep := consumeStep_dup st p o j e hval h
    have h2 : (consumeStep st
        (PollItem.message p o (some j) false)).store.any
        (fun d => d.id = (purchaseDoc e).id) = true := by
      rw [hstep]; exact h
    obtain ⟨hs, hi, hc⟩ :=
      ih (consumeStep st (PollItem.message p o (some j) false)) h2
    rw [List.replicate_succ]
    have hfold : processAll st (PollItem.message p o (some j) false ::
        List.replicate m2 (PollItem.message p o (some j) false)) =
        processAll (consumeStep st (PollItem.message p o (some j) false))
          (List.replicate m2 (PollItem.message p o (some j) false)) := rfl
    rw [hfold]
    refine ⟨?_, ?_, ?_⟩
    · rw [hs, hstep]
    · rw [hi, hstep]
      simp [List.append_assoc, List.replicate_succ]
    · rw [hc, hstep]
      simp [List.append_assoc, List.replicate_succ]

/-- C4: replaying the same valid event `n ≥ 1` times through the consumer
(fault-free persistence, `eventId` initially absent) stores exactly one
document keyed by the `eventId`, reports the first attempt as `Inserted` and
the `n − 1` replays as `AlreadyPresent` — never as a failure — and commits
the offset on every one of the `n` deliveries. -/
theorem c4_idempotent_replay (st : ConsumerState) (p o : Nat) (j : Json)
    (e : PurchaseCreatedEvent) (n : Nat) (hval : model_validate j = some e)
    (habs : st.store.any (fun d => d.id = e.eventId) = false) (hn : 1 ≤ n) :
    (processAll st
      (List.replicate n (PollItem.message p o (some j) false))).store =
      st.store ++ [purchaseDoc e] ∧
    (processAll st
      (List.replicate n (PollItem.message p o (some j) false))).store.countP
      (fun d => d.id = e.eventId) = 1 ∧
    (processAll st
      (List.replicate n (PollItem.message p o (some j) false))).insertOutcomes =
      st.insertOutcomes ++ StoreOutcome.inserted ::
        List.replicate (n - 1) StoreOutcome.alreadyPresent ∧
    (processAll st
      (List.replicate n (PollItem.message p o (some j) false))).commitTrace =
      st.commitTrace ++ List.replicate n (o + 1) := by
  obtain ⟨m, rfl⟩ : ∃ m, n = m + 1 := ⟨n - 1, by omega⟩
  simp only [Nat.add_sub_cancel]
  rw [List.replicate_succ]
  have habs2 : st.store.any (fun d => d.id = (purchaseDoc e).id) = false := habs
  have hstep := consumeStep_fresh st p o j e hval habs2
  have hpres : (consumeStep st
      (PollItem.message p o (some j) false)).store.any
      (fun d => d.id = (purchaseDoc e).id) = true := by
    rw [hstep]
    simp [List.any_append]
  obtain ⟨hs, hi, hc⟩ := processAll_dup p o j e hval m _ hpres
  have hfold : processAll st (PollItem.message p o (some j) false ::
      List.replicate m (PollItem.message p o (some j) false)) =
      processAll (consumeStep st (PollItem.message p o (some j) false))
        (List.replicate m (PollItem.message p o (some j) false)) := rfl
  rw [hfold]
  have h0 : st.store.countP (fun d => d.id = e.eventId) = 0 := by
    rw [List.countP_eq_zero]
    intro a ha
    simp only [List.any_eq_false] at habs
    simpa using habs a ha
  refine ⟨?_, ?_, ?_, ?_⟩
  · rw [hs, hstep]
  · rw [hs, hstep]
    rw [List.countP_append, h0]
    simp [purchaseDoc]
  · rw [hi, hstep]
    simp [List.append_assoc]
  · rw [hc, hstep]
    simp [List.append_assoc, List.replicate_succ]

/-- C4 witness: replaying the sample message three times from an empty
collection stores one document, with outcomes `Inserted` then twice
`AlreadyPresent`, and three offset commits. -/
theorem c4_idempotent_replay_witness :
    (processAll (initState [])
      (List.replicate 3 (PollItem.message 0 4 (some sampleJson) false))).store =
      [] ++ [purchaseDoc sampleEvent] ∧
    (processAll (initState [])
      (List.replicate 3
        (PollItem.message 0 4 (some sampleJson) false))).insertOutcomes =
      [] ++ StoreOutcome.inserted ::
        List.replicate 2 StoreOutcome.alreadyPresent := by
  have h := c4_idempotent_replay (initState []) 0 4 sampleJson sampleEvent 3
    (by decide) (by decide) (by decide)
  exact ⟨h.1, h.2.2.1⟩
